import Mathlib

/-!
Shallow embedding of the RotEncoder Arduino library
(src/RotEncoder.h, src/RotEncoder.cpp).

The library decodes a quadrature rotary-encoder signal inside an interrupt
handler.  The embedding models:

* `EncState` — the per-instance fields of class `RotEncoder`
  (`position`, `cntflg`, `lrflg`, `inA`, `inB`);
* `Pins` — the hardware pull-up configuration of the two input pins
  (set by `enPinA`/`enPinB`, cleared by `diPinA`/`diPinB`);
* `sampleLoop` — the do/while re-sampling loop at the top of
  `RotEncoder::intr`, over two read streams (one per pin), with fuel;
* `intrStep` — the body of `RotEncoder::intr` after a stable pair has been
  sampled (the four-state classification);
* `World`, `begin`, `endEnc`, `getPosition`, `destroy` — the lifecycle
  operations with their process-wide registration slot `intHandle`, with a
  trace of hardware side effects (`HwAction`) to capture their order.

Interrupt masking (`cli`/`sei`, `ATOMIC_BLOCK`) is concurrency discipline
with no sequential content and is not modelled.
-/

/-- Per-instance fields of class `RotEncoder`:
`volatile long position`, `bool cntflg`, `bool lrflg`, `bool inA, inB`. -/
structure EncState where
  position : Int
  cntflg : Bool
  lrflg : Bool
  inA : Bool
  inB : Bool
deriving DecidableEq, Repr

/-- Pull-up configuration of the two input pins: `true` means the pin is an
input with pull-up active (`enPinA`/`enPinB`), `false` means it has been set
to output low (`diPinA`/`diPinB`). -/
structure Pins where
  pullA : Bool
  pullB : Bool
deriving DecidableEq, Repr

/-- A freshly constructed `RotEncoder`: the header initializes
`position = 0` and `cntflg = false`; `lrflg`, `inA`, `inB` are left
uninitialized, so they are parameters here. -/
def mkRotEncoder (l ia ib : Bool) : EncState :=
  { position := 0, cntflg := false, lrflg := l, inA := ia, inB := ib }

/-- Result of the re-sampling loop in `RotEncoder::intr`: the stable values
stored in `inA`/`inB`, together with the stream indices `iA`/`iB` of the
loop-body reads that produced them (the confirming reads are at `iA + 1`
and `iB + 1`). -/
structure Sample where
  inA : Bool
  inB : Bool
  iA : Nat
  iB : Nat
deriving DecidableEq, Repr

/-- The do/while loop
`do { inA = rdPinA(); inB = rdPinB(); } while((inA!=rdPinA())||(inB!=rdPinB()));`
over two read streams `a`, `b` (one value per successive `rdPinA`/`rdPinB`
call).  `i` and `j` count the reads of pins A and B so far.  The C++ `||`
short-circuits: `rdPinB()` in the condition is evaluated only when the first
comparison succeeds.  `fuel` bounds the number of iterations; `none` means
the loop has not exited within `fuel` iterations. -/
def sampleLoop : Nat → (Nat → Bool) → (Nat → Bool) → Nat → Nat → Option Sample
  | 0, _, _, _, _ => none
  | fuel + 1, a, b, i, j =>
    if a i != a (i + 1) then
      sampleLoop fuel a b (i + 2) (j + 1)
    else if b j != b (j + 1) then
      sampleLoop fuel a b (i + 2) (j + 2)
    else
      some { inA := a i, inB := b j, iA := i, iB := j }

/-- Body of `RotEncoder::intr` after the stable pair `(a, b)` has been
sampled: re-enable both pull-ups (done at entry of `intr`), store the
sampled values in `inA`/`inB`, then classify the four states exactly as the
nested `if (inA) { if (inB) ... }` in the source. -/
def intrStep (s : EncState) (_p : Pins) (a b : Bool) : EncState × Pins :=
  let p : Pins := { pullA := true, pullB := true }
  let s : EncState := { s with inA := a, inB := b }
  if a then
    if b then
      ({ s with cntflg := true }, p)
    else
      ({ s with
          position := if !s.lrflg && s.cntflg then s.position + 1 else s.position,
          lrflg := true, cntflg := false },
       { p with pullA := false })
  else
    if b then
      ({ s with
          position := if s.lrflg && s.cntflg then s.position - 1 else s.position,
          lrflg := false, cntflg := false },
       { p with pullB := false })
    else
      (s, p)

/-- One full invocation of `RotEncoder::intr` over the two read streams:
run the re-sampling loop, then the classification.  `none` if the loop does
not exit within `fuel` iterations. -/
def intr (fuel : Nat) (a b : Nat → Bool) (s : EncState) (p : Pins) :
    Option (EncState × Pins) :=
  (sampleLoop fuel a b 0 0).map fun r => intrStep s p r.inA r.inB

/-- A run of the handler, invoked once per stable sampled pair in the
list. -/
def runSteps (sp : EncState × Pins) (l : List (Bool × Bool)) : EncState × Pins :=
  l.foldl (fun sp ab => intrStep sp.1 sp.2 ab.1 ab.2) sp

/-- Hardware side effects performed by the lifecycle operations, in
program order. -/
inductive HwAction where
  | setHandle (h : Option Nat)
  | enableA
  | enableB
  | attachA
  | attachB
  | detachA
  | detachB
deriving DecidableEq, Repr

/-- The process-wide state the lifecycle operations act on: the static
registration slot `RotEncoder::intHandle` (instances are identified by
`Nat`), the hardware pin and interrupt-attachment state, and the fields of
every instance. -/
structure World where
  intHandle : Option Nat
  pins : Pins
  attachedA : Bool
  attachedB : Bool
  encs : Nat → EncState

/-- `RotEncoder::begin` for instance `i`: if `intHandle == nullptr`, set the
slot to this instance, enable both pins with pull-ups, attach the change
interrupt to both pins and return true; otherwise return false.  The
returned list records the side effects in program order. -/
def begin (w : World) (i : Nat) : Bool × World × List HwAction :=
  if w.intHandle = none then
    (true,
     { w with
        intHandle := some i,
        pins := { pullA := true, pullB := true },
        attachedA := true,
        attachedB := true },
     [HwAction.setHandle (some i), HwAction.enableA, HwAction.enableB,
      HwAction.attachA, HwAction.attachB])
  else
    (false, w, [])

/-- `RotEncoder::end` for instance `i`: if `intHandle == this`, clear the
slot (inside the atomic block, before anything else), then detach both
interrupts and return true; otherwise return false.  The returned list
records the side effects in program order. -/
def endEnc (w : World) (i : Nat) : Bool × World × List HwAction :=
  if w.intHandle = some i then
    (true,
     { w with intHandle := none, attachedA := false, attachedB := false },
     [HwAction.setHandle none, HwAction.detachA, HwAction.detachB])
  else
    (false, w, [])

/-- `RotEncoder::getPosition` for instance `i`: read `position` inside an
atomic block and return the snapshot, together with the (unchanged)
world. -/
def getPosition (w : World) (i : Nat) : Int × World :=
  ((w.encs i).position, w)

/-- The destructor `~RotEncoder() { end(); }` of instance `i`: invoke
`endEnc` and discard its boolean result. -/
def destroy (w : World) (i : Nat) : World :=
  (endEnc w i).2.1

/-- The canonical clockwise sequence of stable states named by the spec:
(0,0) → (1,0) → (1,1) → (0,1) → (0,0). -/
def cwSeq : List (Bool × Bool) :=
  [(false, false), (true, false), (true, true), (false, true), (false, false)]

/-- The mirrored counter-clockwise sequence of stable states named by the
spec: (0,0) → (0,1) → (1,1) → (1,0) → (0,0). -/
def ccwSeq : List (Bool × Bool) :=
  [(false, false), (false, true), (true, true), (true, false), (false, false)]

/-! ### Concrete values used by witnesses -/

/-- A concrete encoder state at position 0 with the count flag clear. -/
def e0 : EncState :=
  { position := 0, cntflg := false, lrflg := false, inA := false, inB := false }

/-- Both pull-ups active. -/
def p0 : Pins := { pullA := true, pullB := true }

/-- A concrete world with an empty registration slot. -/
def w0 : World :=
  { intHandle := none, pins := { pullA := false, pullB := false },
    attachedA := false, attachedB := false, encs := fun _ => e0 }

/-- A concrete world in which instance 0 is registered. -/
def w1 : World :=
  { intHandle := some 0, pins := p0,
    attachedA := true, attachedB := true, encs := fun _ => e0 }

/-! ### Helper lemmas -/

/-- Whenever the re-sampling loop exits, the stored values are confirmed by
two consecutive agreeing reads of the corresponding stream. -/
theorem sampleLoop_sound (fuel : Nat) (a b : Nat → Bool) (i j : Nat) (r : Sample)
    (h : sampleLoop fuel a b i j = some r) :
    r.inA = a r.iA ∧ a r.iA = a (r.iA + 1) ∧
    r.inB = b r.iB ∧ b r.iB = b (r.iB + 1) := by
  induction fuel generalizing i j with
  | zero => simp [sampleLoop] at h
  | succ fuel ih =>
    rw [sampleLoop] at h
    by_cases hA : a i != a (i + 1)
    · simp only [hA, if_true] at h
      exact ih _ _ h
    · simp only [hA, if_false] at h
      by_cases hB : b j != b (j + 1)
      · simp only [hB, if_true] at h
        exact ih _ _ h
      · simp only [hB, if_false] at h
        cases h
        simp only [bne_iff_ne, ne_eq, not_not] at hA hB
        exact ⟨rfl, hA, rfl, hB⟩

/-- Once both streams are past their stabilization points, one more
iteration of the re-sampling loop suffices for it to exit. -/
theorem sampleLoop_isSome (a b : Nat → Bool) (N M : Nat)
    (ha : ∀ n, N ≤ n → a n = a N) (hb : ∀ m, M ≤ m → b m = b M) :
    ∀ t i j, N ≤ i + t → M ≤ j + t → (sampleLoop (t + 1) a b i j).isSome := by
  intro t
  induction t with
  | zero =>
    intro i j hi hj
    have hA : a i = a (i + 1) := by
      rw [ha i (by omega), ha (i + 1) (by omega)]
    have hB : b j = b (j + 1) := by
      rw [hb j (by omega), hb (j + 1) (by omega)]
    rw [sampleLoop]
    simp [hA, hB]
  | succ t ih =>
    intro i j hi hj
    rw [sampleLoop]
    by_cases hA : a i != a (i + 1)
    · simp only [hA, if_true]
      exact ih (i + 2) (j + 1) (by omega) (by omega)
    · simp only [hA, if_false]
      by_cases hB : b j != b (j + 1)
      · simp only [hB, if_true]
        exact ih (i + 2) (j + 2) (by omega) (by omega)
      · simp [hB]

/-! ### Claim theorems -/

/-- Claim C9: for every pair of read streams that are eventually constant
(physically stable inputs), the re-sampling loop of `intr` terminates, and
on exit the stored `inA` and `inB` each equal two consecutive agreeing reads
of the corresponding pin. -/
theorem intr_sampling_terminates_stable (a b : Nat → Bool) (N M : Nat)
    (ha : ∀ n, N ≤ n → a n = a N) (hb : ∀ m, M ≤ m → b m = b M) :
    ∃ r : Sample, sampleLoop (max N M + 1) a b 0 0 = some r ∧
      r.inA = a r.iA ∧ a r.iA = a (r.iA + 1) ∧
      r.inB = b r.iB ∧ b r.iB = b (r.iB + 1) := by
  have h := sampleLoop_isSome a b N M ha hb (max N M) 0 0
    (by omega) (by omega)
  rcases Option.isSome_iff_exists.mp h with ⟨r, hr⟩
  exact ⟨r, hr, sampleLoop_sound _ a b 0 0 r hr⟩

/-- Witness for C9: two constant streams stabilize immediately and the loop
exits after one iteration. -/
theorem intr_sampling_terminates_stable_witness :
    ∃ r : Sample, sampleLoop (max 0 0 + 1) (fun _ => true) (fun _ => false) 0 0 = some r ∧
      r.inA = true ∧ true = true ∧ r.inB = false ∧ false = false :=
  intr_sampling_terminates_stable (fun _ => true) (fun _ => false) 0 0
    (fun _ _ => rfl) (fun _ _ => rfl)

/-- Claim C10: a freshly constructed instance has the count-pending flag
clear, so the first invocation of `intr` leaves the position unchanged,
whatever stable pair it samples and whatever the uninitialized `lrflg`,
`inA`, `inB` happen to be. -/
theorem fresh_first_intr_no_count (l ia ib : Bool) (p : Pins) (a b : Bool) :
    (mkRotEncoder l ia ib).cntflg = false ∧
    (intrStep (mkRotEncoder l ia ib) p a b).1.position =
      (mkRotEncoder l ia ib).position := by
  refine ⟨rfl, ?_⟩
  cases a <;> cases b <;> simp [intrStep, mkRotEncoder]

/-- Claim C6: an invocation that samples (1,1) followed by one that samples
(0,0) leaves the position unchanged, from every decoder state. -/
theorem reversal_mid_step_no_count (s : EncState) (p : Pins) :
    (runSteps (s, p) [(true, true), (false, false)]).1.position = s.position := by
  simp [runSteps, intrStep]

/-- Claim C7: `getPosition` returns exactly the current value of the
position counter and changes neither the instance fields nor the
registration slot. -/
theorem getPosition_reads_position (w : World) (i : Nat) :
    (getPosition w i).1 = (w.encs i).position ∧ (getPosition w i).2 = w :=
  ⟨rfl, rfl⟩

/-- Claim C5: entering (1,0) directly from the rest state (0,0) with the
count-pending flag clear produces no position change. -/
theorem bounce_rejection (s : EncState) (p : Pins) (h : s.cntflg = false) :
    (runSteps (s, p) [(false, false), (true, false)]).1.position = s.position := by
  cases s
  subst h
  simp [runSteps, intrStep]

/-- Witness for C5: bounce rejection at the concrete rest state. -/
theorem bounce_rejection_witness :
    (runSteps (e0, p0) [(false, false), (true, false)]).1.position = e0.position :=
  bounce_rejection e0 p0 rfl

/-- Claim C4: a single invocation of the handler changes the position by at
most 1 in absolute value, and `begin`, `endEnc` and `getPosition` leave
every instance's position counter unchanged. -/
theorem position_only_changed_by_intr (s : EncState) (p : Pins) (a b : Bool)
    (w : World) (i j : Nat) :
    ((intrStep s p a b).1.position - s.position).natAbs ≤ 1 ∧
    ((begin w i).2.1.encs j).position = (w.encs j).position ∧
    ((endEnc w i).2.1.encs j).position = (w.encs j).position ∧
    ((getPosition w i).2.encs j).position = (w.encs j).position := by
  refine ⟨?_, ?_, ?_, rfl⟩
  · cases a <;> cases b <;> simp [intrStep] <;> split <;> simp
  · by_cases h : w.intHandle = none <;> simp [begin, h]
  · by_cases h : w.intHandle = some i <;> simp [endEnc, h]

/-- Claim C2: `begin` succeeds — recording the instance in the registration
slot, enabling both pull-ups, attaching both interrupts, and leaving every
instance's fields unchanged — exactly when the slot is empty; otherwise it
returns false and changes nothing. -/
theorem begin_iff_unregistered (w : World) (i : Nat) :
    (w.intHandle = none →
      (begin w i).1 = true ∧
      (begin w i).2.1.intHandle = some i ∧
      (begin w i).2.1.pins = { pullA := true, pullB := true } ∧
      (begin w i).2.1.attachedA = true ∧
      (begin w i).2.1.attachedB = true ∧
      (begin w i).2.1.encs = w.encs) ∧
    (w.intHandle ≠ none →
      (begin w i).1 = false ∧ (begin w i).2.1 = w) := by
  constructor
  · intro h
    simp [begin, h]
  · intro h
    simp [begin, h]

/-- Witness for C2: on an empty slot `begin` succeeds; calling it again on
the same instance (or on a second instance) then fails and leaves the world
unchanged. -/
theorem begin_iff_unregistered_witness :
    (begin w0 0).1 = true ∧
    (begin (begin w0 0).2.1 0).1 = false ∧
    (begin (begin w0 0).2.1 1).1 = false ∧
    (begin (begin w0 0).2.1 0).2.1 = (begin w0 0).2.1 := by
  refine ⟨((begin_iff_unregistered w0 0).1 rfl).1, ?_, ?_, ?_⟩
  · exact ((begin_iff_unregistered (begin w0 0).2.1 0).2 (by simp [begin, w0])).1
  · exact ((begin_iff_unregistered (begin w0 0).2.1 1).2 (by simp [begin, w0])).1
  · exact ((begin_iff_unregistered (begin w0 0).2.1 0).2 (by simp [begin, w0])).2

/-- Claim C3: `endEnc` succeeds — clearing the registration slot and
detaching both interrupts — exactly when the slot holds this instance, and
in its side-effect trace the slot clear comes strictly before either
detach; otherwise it returns false and changes nothing. -/
theorem endEnc_iff_registered (w : World) (i : Nat) :
    (w.intHandle = some i →
      (endEnc w i).1 = true ∧
      (endEnc w i).2.1 =
        { w with intHandle := none, attachedA := false, attachedB := false } ∧
      (endEnc w i).2.2 =
        [HwAction.setHandle none, HwAction.detachA, HwAction.detachB] ∧
      (endEnc w i).2.2.indexOf (HwAction.setHandle none) <
        (endEnc w i).2.2.indexOf HwAction.detachA ∧
      (endEnc w i).2.2.indexOf (HwAction.setHandle none) <
        (endEnc w i).2.2.indexOf HwAction.detachB) ∧
    (w.intHandle ≠ some i →
      (endEnc w i).1 = false ∧ (endEnc w i).2.1 = w) := by
  constructor
  · intro h
    refine ⟨by simp [endEnc, h], by simp [endEnc, h], by simp [endEnc, h], ?_, ?_⟩ <;>
      · simp only [endEnc, h, if_pos]
        decide
  · intro h
    simp [endEnc, h]

/-- Witness for C3: ending the registered instance succeeds and clears the
slot; ending an unregistered instance fails and changes nothing. -/
theorem endEnc_iff_registered_witness :
    (endEnc w1 0).1 = true ∧
    (endEnc w1 0).2.1.intHandle = none ∧
    (endEnc w1 1).1 = false ∧ (endEnc w1 1).2.1 = w1 := by
  refine ⟨((endEnc_iff_registered w1 0).1 rfl).1, ?_, ?_, ?_⟩
  · rw [((endEnc_iff_registered w1 0).1 rfl).2.1]
  · exact ((endEnc_iff_registered w1 1).2 (by simp [w1])).1
  · exact ((endEnc_iff_registered w1 1).2 (by simp [w1])).2

/-- Claim C8: the destructor always invokes `endEnc` (discarding its
result), so destroying the currently registered instance clears the slot
and a subsequent `begin` on a fresh instance succeeds. -/
theorem destructor_clears_registration (w : World) (i j : Nat)
    (h : w.intHandle = some i) :
    destroy w i = (endEnc w i).2.1 ∧
    (destroy w i).intHandle = none ∧
    (begin (destroy w i) j).1 = true := by
  refine ⟨rfl, ?_, ?_⟩ <;> simp [destroy, endEnc, begin, h]

/-- Witness for C8: destroying registered instance 0 lets instance 1
start. -/
theorem destructor_clears_registration_witness :
    destroy w1 0 = (endEnc w1 0).2.1 ∧
    (destroy w1 0).intHandle = none ∧
    (begin (destroy w1 0) 1).1 = true :=
  destructor_clears_registration w1 0 1 rfl

/-- Counterexample to claim C1 as stated: from the rest state at position 0
with the count flag clear, the canonical clockwise sequence
(0,0) → (1,0) → (1,1) → (0,1) → (0,0) yields position −1, not +1. -/
theorem cw_cycle_counterexample :
    (runSteps (e0, p0) cwSeq).1.position = e0.position - 1 ∧
    ¬ ((runSteps (e0, p0) cwSeq).1.position = e0.position + 1) := by
  decide

/-- Claim C1 (amended): from every state with the count-pending flag clear,
the clockwise sequence (0,0) → (1,0) → (1,1) → (0,1) → (0,0) decreases the
position by exactly 1 and the mirrored counter-clockwise sequence
(0,0) → (0,1) → (1,1) → (1,0) → (0,0) increases it by exactly 1. -/
theorem quadrature_cycles_amended (s : EncState) (p : Pins)
    (h : s.cntflg = false) :
    (runSteps (s, p) cwSeq).1.position = s.position - 1 ∧
    (runSteps (s, p) ccwSeq).1.position = s.position + 1 := by
  obtain ⟨pos, c, l, ia, ib⟩ := s
  simp only at h
  subst h
  cases l <;> simp [runSteps, cwSeq, ccwSeq, intrStep]

/-- Witness for amended C1: the full cycles from the concrete rest state. -/
theorem quadrature_cycles_amended_witness :
    (runSteps (e0, p0) cwSeq).1.position = e0.position - 1 ∧
    (runSteps (e0, p0) ccwSeq).1.position = e0.position + 1 :=
  quadrature_cycles_amended e0 p0 rfl
